import Mathlib

/-
  Verification development for the 86Box Unix control-socket subsystem
  (src/unix/unix_control_socket.c).

  C strings are embedded as `List Char`, machine integers as `Nat`/`Int`
  with explicit reductions modulo 2^w where the code truncates.  The
  dispatcher, the 3-argument media-command parser, the session buffer
  loop, the session registry, the LED poller and the screen-CRC routine
  are each translated directly from the source.
-/

namespace CtrlSock

/-- C strings (byte sequences without the terminating NUL). -/
abbrev Str := List Char

/-- CTRL_BUF_SIZE from unix_control_socket.c. -/
def CTRL_BUF_SIZE : Nat := 4096

/-- CTRL_MAX_CLIENTS from unix_control_socket.c. -/
def CTRL_MAX_CLIENTS : Nat := 8

/-- PATH_MAX as used by the source (Linux limits.h value). -/
def PATH_MAX : Nat := 4096

/-- The single-quote character (code 39). -/
def sq : Char := Char.ofNat 39

/-- The double-quote character (code 34). -/
def dq : Char := Char.ofNat 34

/-- The space character (code 32). -/
def spaceC : Char := Char.ofNat 32

/-- The newline character (code 10). -/
def nlC : Char := Char.ofNat 10

/-- The NUL character (code 0). -/
def nulC : Char := Char.ofNat 0

/-- ASCII decimal digit test, as in the C locale. -/
def isDigitC (c : Char) : Bool := '0' ≤ c && c ≤ '9'

/-- Whitespace characters skipped by atoi. -/
def isSpaceC (c : Char) : Bool :=
  c = spaceC || c = Char.ofNat 9 || c = nlC || c = Char.ofNat 11
    || c = Char.ofNat 12 || c = Char.ofNat 13

/-- Numeric value of an ASCII digit. -/
def digitVal (c : Char) : Nat := c.toNat - '0'.toNat

/-- Accumulate a decimal digit run, stopping at the first non-digit. -/
def atoiDigits : List Char → Nat → Nat
  | [], acc => acc
  | c :: cs, acc => if isDigitC c then atoiDigits cs (acc * 10 + digitVal c) else acc

/-- C `atoi`: skip whitespace, optional sign, then a decimal digit run
(0 when no digits are present). -/
def atoi (s : Str) : Int :=
  let s1 := s.dropWhile isSpaceC
  match s1 with
  | c :: cs =>
    if c = '-' then -(atoiDigits cs 0 : Int)
    else if c = '+' then (atoiDigits cs 0 : Int)
    else (atoiDigits s1 0 : Int)
  | [] => 0

/-- Conversion of a C `int` value to `uint8_t` (reduction modulo 256). -/
def toUint8 (v : Int) : Nat := (v.emod 256).toNat

/-- Decimal rendering of a natural number, with explicit fuel so that the
definition is structural (mirrors printf %d for the values used). -/
def natToStrAux : Nat → Nat → Str
  | 0, _ => []
  | fuel + 1, n =>
    if n < 10 then [Char.ofNat ('0'.toNat + n)]
    else natToStrAux fuel (n / 10) ++ [Char.ofNat ('0'.toNat + n % 10)]

/-- Decimal rendering of a natural number. -/
def natToStr (n : Nat) : Str := natToStrAux (n + 1) n

/-- Whether a character is one of the two quote characters recognised by
the media-command parser. -/
def isQuote (c : Char) : Bool := c = sq || c = dq

/-- Models `xargv[curarg] + (xargv[curarg][0] == quote)`: skip one leading
quote character when present (an empty token has first byte NUL, which is
not a quote). -/
def stripLead (t : Str) : Str :=
  match t with
  | c :: rest => if isQuote c then rest else c :: rest
  | [] => []

/-- Whether `fn[strlen(fn) - 1]` is a quote character, under the
convention that the (out-of-bounds) read on an empty string yields a
non-quote byte; the `ok` flags below record when that read happens. -/
def lastIsQuote (s : Str) : Bool :=
  match s.getLast? with
  | some c => isQuote c
  | none => false

/-- Models `if (fn[strlen(fn)-1] == quote) fn[strlen(fn)-1] = 0`. -/
def stripTrailQ (s : Str) : Str := if lastIsQuote s then s.dropLast else s

/-- Loop of `ctrl_process_media_commands_3` over `xargv[2..cmdargc-1]`
for a quoted third token.  Returns (fn, err, wp, ok): the accumulated
path, the too-long flag, the write-protect value when one was stored, and
a ghost flag that is false when some `fn[strlen(fn)-1]` read happened
with `fn` empty (an out-of-bounds read in the C code). -/
def media3Loop : List Str → Str → Bool → Bool → Str × Bool × Option Int × Bool
  | [], fn, err, ok => (fn, err, none, ok)
  | t :: rest, fn, err, ok =>
    let err1 := err || decide (PATH_MAX ≤ fn.length + t.length)
    let fn1 := fn ++ stripLead t
    let ok1 := ok && decide (fn1 ≠ [])
    if lastIsQuote fn1 then
      (fn1, err1, (rest.head?).map atoi, ok1)
    else
      media3Loop rest (fn1 ++ [spaceC]) err1 ok1

/-- Result of `ctrl_process_media_commands_3`: the `err` return value,
the id written through the `uint8_t *` out-parameter, the path buffer
contents, the write-protect value when one was written (`none` models the
out-parameter being left unwritten), and the ghost in-bounds flag. -/
structure Media3Out where
  err : Bool
  id : Nat
  fn : Str
  wp : Option Int
  ok : Bool
deriving DecidableEq

/-- `ctrl_process_media_commands_3` (unix_control_socket.c:138-174) on
the argument vector: `*id = atoi(xargv[1])` truncated to uint8_t by the
caller-supplied out-parameter type, then either the quoted-path loop or
the plain third-token branch, then the trailing-quote strip of line 170. -/
def media3 (xargv : List Str) : Media3Out :=
  let id := toUint8 (atoi (xargv.getD 1 []))
  let t2 := xargv.getD 2 []
  let r :=
    match t2.head? with
    | some c =>
      if isQuote c then media3Loop (xargv.drop 2) [] false true
      else if t2.length < PATH_MAX then (t2, false, some (atoi (xargv.getD 3 [])), true)
      else ([], true, none, true)
    | none =>
      if t2.length < PATH_MAX then (t2, false, some (atoi (xargv.getD 3 [])), true)
      else ([], true, none, true)
  let ok := r.2.2.2 && decide (r.1 ≠ [])
  ⟨r.2.1, id, stripTrailQ r.1, r.2.2.1, ok⟩

/-- Path reassembly of the `cdload` handler (unix_control_socket.c:395-404):
remaining arguments are rejoined with single spaces, `none` when the
`strlen(fn) + strlen(xargv[i]) + 1 >= PATH_MAX` check fires. -/
def cdloadJoin : List Str → Str → Bool → Option Str
  | [], fn, _ => some fn
  | t :: rest, fn, first =>
    if PATH_MAX ≤ fn.length + t.length + 1 then none
    else cdloadJoin rest (fn ++ (if first then [] else [spaceC]) ++ t) false

/-- Per-class drive counts (FDD_NUM, CDROM_NUM, MO_NUM, RDISK_NUM);
these are defined in 86Box headers outside the given source, so the
embedding is parametric in them (the cartridge count 2 is a literal in
the source). -/
structure Counts where
  fddNum : Nat
  cdromNum : Nat
  moNum : Nat
  rdiskNum : Nat
deriving DecidableEq

/-- Collaborator mount/eject operations invoked by the dispatcher. -/
inductive Call where
  | cdromMount (id : Nat) (fn : Str)
  | floppyMount (id : Nat) (fn : Str) (wp : Option Int)
  | floppyEject (id : Nat)
  | moMount (id : Nat) (fn : Str) (wp : Option Int)
  | moEject (id : Nat)
  | rdiskMount (id : Nat) (fn : Str) (wp : Option Int)
  | rdiskEject (id : Nat)
  | cartridgeMount (id : Nat) (fn : Str) (wp : Option Int)
  | cartridgeEject (id : Nat)
deriving DecidableEq

/-- Outcome of one media command dispatch: the reply line sent to the
client, the collaborator call made (if any), and the ghost in-bounds
flag from the path buffer accesses. -/
structure DispatchResult where
  reply : Str
  call : Option Call
  ok : Bool
deriving DecidableEq

/-- Case-insensitive string equality, as `strcasecmp(...) == 0`. -/
def eqCIs (a b : Str) : Bool := a.map Char.toLower == b.map Char.toLower

/-- The `cdload` branch (unix_control_socket.c:377-409). -/
def cdloadHandler (k : Counts) (args : List Str) : DispatchResult :=
  let id := toUint8 (atoi (args.getD 1 []))
  if k.cdromNum ≤ id then ⟨("ERR invalid drive id\n").toList, none, true⟩
  else
    match cdloadJoin (args.drop 2) [] true with
    | none => ⟨("ERR path too long\n").toList, none, true⟩
    | some fn =>
      ⟨("OK cdrom ").toList ++ natToStr id ++ (" loaded\n").toList,
        some (Call.cdromMount id fn), true⟩

/-- A `*load` branch using `ctrl_process_media_commands_3`
(fddload/moload/rdiskload/cartload, e.g. unix_control_socket.c:421-444):
on `err || id >= NUM` the reply is `ERR invalid arguments`; otherwise the
caller strips one more trailing quote (line 438) and mounts. -/
def load3Handler (classNum : Nat) (okName : Str)
    (ctor : Nat → Str → Option Int → Call) (args : List Str) : DispatchResult :=
  let m := media3 args
  if m.err || decide (classNum ≤ m.id) then
    ⟨("ERR invalid arguments\n").toList, none, m.ok⟩
  else
    let ok := m.ok && decide (m.fn ≠ [])
    let fn := stripTrailQ m.fn
    ⟨("OK ").toList ++ okName ++ [spaceC] ++ natToStr m.id ++ (" loaded\n").toList,
      some (ctor m.id fn m.wp), ok⟩

/-- An `*eject` branch (e.g. unix_control_socket.c:410-420). -/
def ejectHandler (classNum : Nat) (okName : Str)
    (ctor : Nat → Call) (args : List Str) : DispatchResult :=
  let id := toUint8 (atoi (args.getD 1 []))
  if classNum ≤ id then ⟨("ERR invalid drive id\n").toList, none, true⟩
  else
    ⟨("OK ").toList ++ okName ++ [spaceC] ++ natToStr id ++ (" ejected\n").toList,
      some (ctor id), true⟩

/-- The media-command part of `ctrl_handle_command`'s strcasecmp chain
(unix_control_socket.c:356-560), in source order.  `none` means the line
is handled by a branch outside the media subset (status, pause, screen
and mouse commands, help, unknown-command) — none of those branches
invoke a mount/eject collaborator.  A load command whose `cmdargc` guard
fails falls through the whole chain in the source and is answered as an
unknown command, so it is also outside the media subset here. -/
def dispatch (k : Counts) (args : List Str) : Option DispatchResult :=
  match args with
  | [] => none
  | cmd :: _ =>
    if eqCIs cmd (("cdload").toList) ∧ 3 ≤ args.length then
      some (cdloadHandler k args)
    else if eqCIs cmd (("cdeject").toList) ∧ 2 ≤ args.length then
      some (ejectHandler k.cdromNum (("cdrom").toList)
        (fun i => Call.cdromMount i []) args)
    else if eqCIs cmd (("fddload").toList) ∧ 4 ≤ args.length then
      some (load3Handler k.fddNum (("fdd").toList) Call.floppyMount args)
    else if eqCIs cmd (("fddeject").toList) ∧ 2 ≤ args.length then
      some (ejectHandler k.fddNum (("fdd").toList) Call.floppyEject args)
    else if eqCIs cmd (("moload").toList) ∧ 4 ≤ args.length then
      some (load3Handler k.moNum (("mo").toList) Call.moMount args)
    else if eqCIs cmd (("moeject").toList) ∧ 2 ≤ args.length then
      some (ejectHandler k.moNum (("mo").toList) Call.moEject args)
    else if eqCIs cmd (("rdiskload").toList) ∧ 4 ≤ args.length then
      some (load3Handler k.rdiskNum (("rdisk").toList) Call.rdiskMount args)
    else if eqCIs cmd (("rdiskeject").toList) ∧ 2 ≤ args.length then
      some (ejectHandler k.rdiskNum (("rdisk").toList) Call.rdiskEject args)
    else if eqCIs cmd (("cartload").toList) ∧ 4 ≤ args.length then
      some (load3Handler 2 (("cartridge").toList) Call.cartridgeMount args)
    else if eqCIs cmd (("carteject").toList) ∧ 2 ≤ args.length then
      some (ejectHandler 2 (("cartridge").toList) Call.cartridgeEject args)
    else none

/-- Observable reply and collaborator call of a dispatch outcome. -/
def replyCall (o : Option DispatchResult) : Option (Str × Option Call) :=
  o.map fun r => (r.reply, r.call)

/-- Collaborator call of a dispatch outcome. -/
def callOf (o : Option DispatchResult) : Option Call :=
  o.bind fun r => r.call

/-
  Session input buffering (ctrl_server_thread, lines 950-994).
-/

/-- Line extraction from the NUL-terminated buffer: repeated
`strchr(start, '\n')` plus the final `memmove` of the remainder.  A NUL
byte inside the buffered data stops `strchr`, so no line after it can be
extracted; the bytes themselves stay counted in `buf_len`. -/
def splitNl : Str → List Str × Str
  | [] => ([], [])
  | c :: cs =>
    if c = nulC then ([], c :: cs)
    else if c = nlC then
      let r := splitNl cs
      ([] :: r.1, r.2)
    else
      match splitNl cs with
      | ([], _) => ([], c :: cs)
      | (l :: ls, rem) => ((c :: l) :: ls, rem)

/-- One session's read/process loop (unix_control_socket.c:950-994) over
a byte stream `pend` and a schedule of readiness events: each event
first applies the `space <= 0` overflow check, then reads
`min(space, max sz 1, available)` bytes (every possible positive
`read` return is some schedule); a ready event with no data models the
peer closing (read returns 0).  The result is the list of lines handed
to `ctrl_handle_command` and `some finalBuffer`, or `none` when the
session was removed. -/
def runSession : Str → Str → List Nat → List Str × Option Str
  | buf, _, [] => ([], some buf)
  | buf, pend, sz :: rest =>
    if CTRL_BUF_SIZE ≤ buf.length + 1 then ([], none)
    else if pend.length = 0 then ([], none)
    else
      let n := min (CTRL_BUF_SIZE - buf.length - 1) (min (max sz 1) pend.length)
      let r := splitNl (buf ++ pend.take n)
      let o := runSession r.2 (pend.drop n) rest
      (r.1 ++ o.1, o.2)

/-
  Session registry (accept path lines 927-946, ctrl_remove_client 706-722).
-/

/-- One registered session: connection handle, buffer and length. -/
structure ClientSlot where
  fd : Int
  buf : Str
deriving DecidableEq

/-- The accept path: when `CTRL_MAX_CLIENTS` sessions are registered the
connection is told `ERR too many clients` and closed without being
added; otherwise it is appended with an empty buffer.  The result is
(new registry, rejection message sent if any, whether the new handle was
closed immediately). -/
def acceptClient (reg : List ClientSlot) (fd : Int) :
    List ClientSlot × Option Str × Bool :=
  if CTRL_MAX_CLIENTS ≤ reg.length then
    (reg, some (("ERR too many clients\n").toList), true)
  else
    (reg ++ [⟨fd, []⟩], none, false)

/-- `ctrl_remove_client`: close the handle and shift the following
entries down. -/
def removeClient (reg : List ClientSlot) (idx : Nat) : List ClientSlot :=
  if idx < reg.length then reg.eraseIdx idx else reg

/-
  LED/media poller (ctrl_led_poll_thread, lines 727-888).
-/

/-- One unit of the external `machine_status` table. -/
structure DevStatus where
  active : Bool
  write_active : Bool
  empty : Bool
deriving DecidableEq

/-- The poller's previous-value mirror for one unit's LED pair. -/
structure LedPrev where
  active : Bool
  write_active : Bool
deriving DecidableEq

/-- LED state text derived from (active, write_active). -/
def ledStateStr (a w : Bool) : Str :=
  if w then ("write").toList else if a then ("read").toList else ("idle").toList

/-- A `!led <class> <id> <state>` broadcast line. -/
def ledLine (name : Str) (i : Nat) (a w : Bool) : Str :=
  ("!led ").toList ++ name ++ [spaceC] ++ natToStr i ++ [spaceC] ++ ledStateStr a w ++ [nlC]

/-- A `!media <class> <id> <inserted|ejected>` broadcast line. -/
def mediaLine (name : Str) (i : Nat) (e : Bool) : Str :=
  ("!media ").toList ++ name ++ [spaceC] ++ natToStr i
    ++ [spaceC] ++ (if e then ("ejected").toList else ("inserted").toList) ++ [nlC]

/-- Per-tick scan of one media-bearing device class (e.g. the floppy
block, lines 771-790): for each unit, one `!led` line when the
(active, write_active) pair changed (updating the mirror), then one
`!media` line when `empty` changed.  Returns the broadcast lines and
the updated mirror. -/
def pollClassMedia (name : Str) : Nat → List DevStatus → List (LedPrev × Bool) →
    List Str × List (LedPrev × Bool)
  | _, [], _ => ([], [])
  | _, _ :: _, [] => ([], [])
  | i, c :: cs, p :: ps =>
    let ledChanged := (c.active != p.1.active) || (c.write_active != p.1.write_active)
    let ledOut := if ledChanged then [ledLine name i c.active c.write_active] else []
    let pl := if ledChanged then LedPrev.mk c.active c.write_active else p.1
    let medChanged := c.empty != p.2
    let medOut := if medChanged then [mediaLine name i c.empty] else []
    let pe := if medChanged then c.empty else p.2
    let r := pollClassMedia name (i + 1) cs ps
    (ledOut ++ medOut ++ r.1, (pl, pe) :: r.2)

/-- Per-tick scan of a class without media notifications (hdd, net). -/
def pollClassLed (name : Str) : Nat → List DevStatus → List LedPrev →
    List Str × List LedPrev
  | _, [], _ => ([], [])
  | _, _ :: _, [] => ([], [])
  | i, c :: cs, p :: ps =>
    let ledChanged := (c.active != p.active) || (c.write_active != p.write_active)
    let ledOut := if ledChanged then [ledLine name i c.active c.write_active] else []
    let pl := if ledChanged then LedPrev.mk c.active c.write_active else p
    let r := pollClassLed name (i + 1) cs ps
    (ledOut ++ r.1, pl :: r.2)

/-- The live `machine_status` view, one list of units per class. -/
structure MachineStatus where
  fdd : List DevStatus
  cdrom : List DevStatus
  hdd : List DevStatus
  rdisk : List DevStatus
  mo : List DevStatus
  net : List DevStatus
deriving DecidableEq

/-- The poller's private previous-state mirrors (prev_fdd/.../prev_net
and the prev_*_empty tables). -/
structure PrevState where
  fdd : List (LedPrev × Bool)
  cdrom : List (LedPrev × Bool)
  hdd : List LedPrev
  rdisk : List (LedPrev × Bool)
  mo : List (LedPrev × Bool)
  net : List LedPrev
deriving DecidableEq

/-- One iteration of the poller's while loop (lines 764-887): with zero
registered sessions the body is skipped entirely (`continue` at line
767); otherwise the six classes are scanned in source order and the
broadcast lines are emitted in that order. -/
def ctrlLedTick (numClients : Nat) (ms : MachineStatus) (prev : PrevState) :
    List Str × PrevState :=
  if numClients = 0 then ([], prev)
  else
    let rf := pollClassMedia (("fdd").toList) 0 ms.fdd prev.fdd
    let rc := pollClassMedia (("cdrom").toList) 0 ms.cdrom prev.cdrom
    let rh := pollClassLed (("hdd").toList) 0 ms.hdd prev.hdd
    let rr := pollClassMedia (("rdisk").toList) 0 ms.rdisk prev.rdisk
    let rm := pollClassMedia (("mo").toList) 0 ms.mo prev.mo
    let rn := pollClassLed (("net").toList) 0 ms.net prev.net
    (rf.1 ++ rc.1 ++ rh.1 ++ rr.1 ++ rm.1 ++ rn.1,
      ⟨rf.2, rc.2, rh.2, rr.2, rm.2, rn.2⟩)

/-- The mirror contents that exactly reflect a status table (what the
initialisation loop at lines 735-762 stores, and what a tick is expected
to leave behind). -/
def snapOf (ms : MachineStatus) : PrevState :=
  ⟨ms.fdd.map (fun c => (LedPrev.mk c.active c.write_active, c.empty)),
   ms.cdrom.map (fun c => (LedPrev.mk c.active c.write_active, c.empty)),
   ms.hdd.map (fun c => LedPrev.mk c.active c.write_active),
   ms.rdisk.map (fun c => (LedPrev.mk c.active c.write_active, c.empty)),
   ms.mo.map (fun c => (LedPrev.mk c.active c.write_active, c.empty)),
   ms.net.map (fun c => LedPrev.mk c.active c.write_active)⟩

/-
  screencrc CRC-32 (lines 648-660) and region clamping (lines 634-646).
-/

/-- One bit step of the CRC loop:
`crc = (crc >> 1) ^ ((-(crc & 1)) & 0xEDB88320)` on uint32. -/
def crcStep (c : Nat) : Nat :=
  (c / 2) ^^^ (if c % 2 = 1 then 0xEDB88320 else 0)

/-- One byte of the CRC loop: `crc ^= byte` then eight bit steps. -/
def crcByte (crc b : Nat) : Nat := crcStep^[8] (crc ^^^ b)

/-- Standard bit-reflected CRC-32 over a byte list: polynomial
0xEDB88320, initial value 0xFFFFFFFF, final XOR 0xFFFFFFFF, one byte at
a time. -/
def crc32 (bs : List Nat) : Nat :=
  (bs.foldl crcByte 0xFFFFFFFF) ^^^ 0xFFFFFFFF

/-- A BGRA pixel as its four bytes. -/
structure Pixel where
  b : Nat
  g : Nat
  r : Nat
  a : Nat
deriving DecidableEq

/-- The first three bytes of a pixel (`row[x*4+c]` for c = 0, 1, 2). -/
def pixelBGR (p : Pixel) : List Nat := [p.b, p.g, p.r]

/-- The screencrc computation (lines 649-660): the triple loop over rows
`by+ry .. by+ry+rh-1`, columns `0 .. rw-1` of the region and the three
colour bytes of each pixel, skipping the alpha byte. -/
def screencrcRaw (line : Nat → Nat → Pixel) (bx byy rx ry rw rh : Nat) : Nat :=
  ((List.range rh).foldl (fun crc dy =>
    (List.range rw).foldl (fun crc dx =>
      (pixelBGR (line (byy + ry + dy) (bx + rx + dx))).foldl crcByte crc) crc)
    0xFFFFFFFF) ^^^ 0xFFFFFFFF

/-- The colour bytes of the region in row-major order. -/
def regionBytes (line : Nat → Nat → Pixel) (bx byy rx ry rw rh : Nat) : List Nat :=
  (List.range rh).flatMap fun dy =>
    (List.range rw).flatMap fun dx =>
      pixelBGR (line (byy + ry + dy) (bx + rx + dx))

/-- Region clamping of the screencrc handler (lines 634-646): negative
origins clamp to zero, extents are cut at the visible rectangle, and an
empty result is the `ERR region out of bounds` case (`none`). -/
def clampRegion (bw bh rx ry rw rh : Int) : Option (Int × Int × Int × Int) :=
  let rx1 := if rx < 0 then 0 else rx
  let ry1 := if ry < 0 then 0 else ry
  let rw1 := if bw < rx1 + rw then bw - rx1 else rw
  let rh1 := if bh < ry1 + rh then bh - ry1 else rh
  if rw1 ≤ 0 ∨ rh1 ≤ 0 then none else some (rx1, ry1, rw1, rh1)

/-
  Specification-side definitions, written from the claims' own wording,
  to be compared with the source-derived definitions above.
-/

/-- Tokens joined with single spaces re-inserted. -/
def joinSp : List Str → Str
  | [] => []
  | [t] => t
  | t :: ts => t ++ spaceC :: joinSp ts

/-- Write-protect flag position according to claim C2's wording: scan the
tokens from the third one for the first token that ends in the same
quote character as the opening one, and read the flag from the token
immediately following it; for an unquoted third token read it from the
fourth. -/
def c2OrigWp (xargv : List Str) : Option Int :=
  match (xargv.getD 2 []).head? with
  | some q =>
    if isQuote q then
      match (xargv.drop 2).findIdx? (fun t => t.getLast? == some q) with
      | some i => ((xargv.drop 2).drop (i + 1)).head?.map atoi
      | none => none
    else some (atoi (xargv.getD 3 []))
  | none => none

/-- The path accumulated after processing tokens 0..k of the loop's token
list: each token stripped of one leading quote character, joined with
single spaces. -/
def c2FnAt (toks : List Str) (k : Nat) : Str :=
  joinSp ((toks.take (k + 1)).map stripLead)

/-- First position (if any) at which the accumulated path — prefixed by
`pre` — ends in a quote character. -/
def c2CloseFrom (pre : Str) (toks : List Str) : Option Nat :=
  (List.range toks.length).find? fun k => lastIsQuote (pre ++ c2FnAt toks k)

/-- Declarative description of the quoted-path loop: the accumulated
path and the write-protect flag, determined by the first closing
position; when no token closes the quote, the whole list is joined and a
trailing space remains, with no flag stored. -/
def c2SpecLoop (pre : Str) (toks : List Str) : Str × Option Int :=
  match c2CloseFrom pre toks with
  | some k => (pre ++ c2FnAt toks k, ((toks.drop (k + 1)).head?).map atoi)
  | none =>
    (match toks with
     | [] => pre
     | _ :: _ => pre ++ c2FnAt toks (toks.length - 1) ++ [spaceC], none)

/-- Path argument of a mount collaborator call, when there is one. -/
def callPath : Option Call → Option Str
  | some (Call.cdromMount _ fn) => some fn
  | some (Call.floppyMount _ fn _) => some fn
  | some (Call.moMount _ fn _) => some fn
  | some (Call.rdiskMount _ fn _) => some fn
  | some (Call.cartridgeMount _ fn _) => some fn
  | _ => none

/-- Number of changed watched fields of one media-bearing unit, per claim
C8's wording (active, writeActive and empty each count separately). -/
def c8FieldCount (c : DevStatus) (pl : LedPrev) (pe : Bool) : Nat :=
  (if c.active != pl.active then 1 else 0)
    + (if c.write_active != pl.write_active then 1 else 0)
    + (if c.empty != pe then 1 else 0)

/-- Broadcast lines one media-bearing unit must produce on a tick: one
`!led` line when the LED pair changed, then one `!media` line when the
media state changed. -/
def unitMediaSpec (name : Str) (i : Nat) (c : DevStatus) (p : LedPrev × Bool) : List Str :=
  (if (c.active != p.1.active) || (c.write_active != p.1.write_active) then
    [ledLine name i c.active c.write_active] else [])
    ++ (if c.empty != p.2 then [mediaLine name i c.empty] else [])

/-- Broadcast lines one unit of a class without media tracking must
produce on a tick. -/
def unitLedSpec (name : Str) (i : Nat) (c : DevStatus) (p : LedPrev) : List Str :=
  if (c.active != p.active) || (c.write_active != p.write_active) then
    [ledLine name i c.active c.write_active] else []

/-- Expected per-class broadcast lines, unit by unit. -/
def expectedMedia (name : Str) (k : Nat) (cur : List DevStatus)
    (prev : List (LedPrev × Bool)) : List Str :=
  (List.range cur.length).flatMap fun j =>
    unitMediaSpec name (k + j) (cur.getD j ⟨false, false, false⟩)
      (prev.getD j (⟨false, false⟩, false))

/-- Expected per-class broadcast lines for a class without media
tracking. -/
def expectedLed (name : Str) (k : Nat) (cur : List DevStatus)
    (prev : List LedPrev) : List Str :=
  (List.range cur.length).flatMap fun j =>
    unitLedSpec name (k + j) (cur.getD j ⟨false, false, false⟩)
      (prev.getD j ⟨false, false⟩)

/-- Newline-terminated concatenation of dispatched lines. -/
def joinNl (ls : List Str) : Str := ls.flatMap fun l => l ++ [nlC]

/-- The path accumulated by the cdload rejoin loop after a first token
has already been stored: the remaining tokens each preceded by one
space. -/
def accJoin (acc : Str) (toks : List Str) : Str :=
  match toks with
  | [] => acc
  | _ :: _ => acc ++ spaceC :: joinSp toks

/-
  Routing lemmas: which handler each command name reaches in the
  strcasecmp chain.
-/

lemma dispatch_cdload (k : Counts) (t1 t2 : Str) (rest : List Str) :
    dispatch k (("cdload").toList :: t1 :: t2 :: rest)
      = some (cdloadHandler k (("cdload").toList :: t1 :: t2 :: rest)) := by
  simp only [dispatch]
  rw [if_pos]
  exact ⟨by decide, by simp⟩

lemma dispatch_cdeject (k : Counts) (t1 : Str) (rest : List Str) :
    dispatch k (("cdeject").toList :: t1 :: rest)
      = some (ejectHandler k.cdromNum (("cdrom").toList) (fun i => Call.cdromMount i [])
          (("cdeject").toList :: t1 :: rest)) := by
  simp only [dispatch]
  rw [if_neg, if_pos]
  · exact ⟨by decide, by simp⟩
  · rintro ⟨h, -⟩; revert h; decide

lemma dispatch_fddload (k : Counts) (t1 t2 t3 : Str) (rest : List Str) :
    dispatch k (("fddload").toList :: t1 :: t2 :: t3 :: rest)
      = some (load3Handler k.fddNum (("fdd").toList) Call.floppyMount
          (("fddload").toList :: t1 :: t2 :: t3 :: rest)) := by
  simp only [dispatch]
  rw [if_neg, if_neg, if_pos]
  · exact ⟨by decide, by simp⟩
  all_goals rintro ⟨h, -⟩; revert h; decide

lemma dispatch_fddeject (k : Counts) (t1 : Str) (rest : List Str) :
    dispatch k (("fddeject").toList :: t1 :: rest)
      = some (ejectHandler k.fddNum (("fdd").toList) Call.floppyEject
          (("fddeject").toList :: t1 :: rest)) := by
  simp only [dispatch]
  rw [if_neg, if_neg, if_neg, if_pos]
  · exact ⟨by decide, by simp⟩
  all_goals rintro ⟨h, -⟩; revert h; decide

lemma dispatch_moload (k : Counts) (t1 t2 t3 : Str) (rest : List Str) :
    dispatch k (("moload").toList :: t1 :: t2 :: t3 :: rest)
      = some (load3Handler k.moNum (("mo").toList) Call.moMount
          (("moload").toList :: t1 :: t2 :: t3 :: rest)) := by
  simp only [dispatch]
  rw [if_neg, if_neg, if_neg, if_neg, if_pos]
  · exact ⟨by decide, by simp⟩
  all_goals rintro ⟨h, -⟩; revert h; decide

lemma dispatch_moeject (k : Counts) (t1 : Str) (rest : List Str) :
    dispatch k (("moeject").toList :: t1 :: rest)
      = some (ejectHandler k.moNum (("mo").toList) Call.moEject
          (("moeject").toList :: t1 :: rest)) := by
  simp only [dispatch]
  rw [if_neg, if_neg, if_neg, if_neg, if_neg, if_pos]
  · exact ⟨by decide, by simp⟩
  all_goals rintro ⟨h, -⟩; revert h; decide

lemma dispatch_rdiskload (k : Counts) (t1 t2 t3 : Str) (rest : List Str) :
    dispatch k (("rdiskload").toList :: t1 :: t2 :: t3 :: rest)
      = some (load3Handler k.rdiskNum (("rdisk").toList) Call.rdiskMount
          (("rdiskload").toList :: t1 :: t2 :: t3 :: rest)) := by
  simp only [dispatch]
  rw [if_neg, if_neg, if_neg, if_neg, if_neg, if_neg, if_pos]
  · exact ⟨by decide, by simp⟩
  all_goals rintro ⟨h, -⟩; revert h; decide

lemma dispatch_rdiskeject (k : Counts) (t1 : Str) (rest : List Str) :
    dispatch k (("rdiskeject").toList :: t1 :: rest)
      = some (ejectHandler k.rdiskNum (("rdisk").toList) Call.rdiskEject
          (("rdiskeject").toList :: t1 :: rest)) := by
  simp only [dispatch]
  rw [if_neg, if_neg, if_neg, if_neg, if_neg, if_neg, if_neg, if_pos]
  · exact ⟨by decide, by simp⟩
  all_goals rintro ⟨h, -⟩; revert h; decide

lemma dispatch_cartload (k : Counts) (t1 t2 t3 : Str) (rest : List Str) :
    dispatch k (("cartload").toList :: t1 :: t2 :: t3 :: rest)
      = some (load3Handler 2 (("cartridge").toList) Call.cartridgeMount
          (("cartload").toList :: t1 :: t2 :: t3 :: rest)) := by
  simp only [dispatch]
  rw [if_neg, if_neg, if_neg, if_neg, if_neg, if_neg, if_neg, if_neg, if_pos]
  · exact ⟨by decide, by simp⟩
  all_goals rintro ⟨h, -⟩; revert h; decide

lemma dispatch_carteject (k : Counts) (t1 : Str) (rest : List Str) :
    dispatch k (("carteject").toList :: t1 :: rest)
      = some (ejectHandler 2 (("cartridge").toList) Call.cartridgeEject
          (("carteject").toList :: t1 :: rest)) := by
  simp only [dispatch]
  rw [if_neg, if_neg, if_neg, if_neg, if_neg, if_neg, if_neg, if_neg, if_neg, if_pos]
  · exact ⟨by decide, by simp⟩
  all_goals rintro ⟨h, -⟩; revert h; decide

lemma media3_id (xargv : List Str) :
    (media3 xargv).id = toUint8 (atoi (xargv.getD 1 [])) := by
  simp only [media3]

lemma load3_invalid (classNum : Nat) (okName : Str)
    (ctor : Nat → Str → Option Int → Call) (cmd t1 : Str) (rest : List Str)
    (h : classNum ≤ toUint8 (atoi t1)) :
    replyCall (some (load3Handler classNum okName ctor (cmd :: t1 :: rest)))
      = some (("ERR invalid arguments\n").toList, none) := by
  have hb : decide (classNum ≤ (media3 (cmd :: t1 :: rest)).id) = true := by
    rw [media3_id]
    simpa using h
  simp only [load3Handler, hb, Bool.or_true, if_true]
  rfl

lemma eject_invalid (classNum : Nat) (okName : Str) (ctor : Nat → Call)
    (cmd t1 : Str) (rest : List Str) (h : classNum ≤ toUint8 (atoi t1)) :
    replyCall (some (ejectHandler classNum okName ctor (cmd :: t1 :: rest)))
      = some (("ERR invalid drive id\n").toList, none) := by
  simp only [ejectHandler, List.getD_cons_succ, List.getD_cons_zero]
  rw [if_pos h]
  rfl

/-- Claim C1 fails on the code: for `fddload` (and the other 3-argument
load commands) an out-of-range drive id is answered with
`ERR invalid arguments`, not with `ERR invalid drive id` as the claim
states (shown here at the input `fddload 200 x 1` with FDD_NUM = 1). -/
theorem c1_counterexample :
    ¬ (∀ k : Counts, k.fddNum ≤ toUint8 (atoi (("200").toList)) →
        replyCall (dispatch k
            [("fddload").toList, ("200").toList, ("x").toList, ("1").toList])
          = some (("ERR invalid drive id\n").toList, none)) := by
  intro h
  have h1 := h ⟨1, 1, 1, 1⟩ (by decide)
  revert h1
  decide

/-- Claim C1, amended: a load/eject command whose id argument's `atoi`
value, truncated to `uint8_t`, is at or above the class's unit count is
rejected without any collaborator call; the reply is exactly
`ERR invalid drive id` for `cdload` and the five eject commands, and
`ERR invalid arguments` for `fddload`/`moload`/`rdiskload`/`cartload`. -/
theorem c1_theorem (k : Counts) (t1 : Str) :
    (∀ t2 rest, k.cdromNum ≤ toUint8 (atoi t1) →
      replyCall (dispatch k (("cdload").toList :: t1 :: t2 :: rest))
        = some (("ERR invalid drive id\n").toList, none))
    ∧ (∀ rest, k.cdromNum ≤ toUint8 (atoi t1) →
      replyCall (dispatch k (("cdeject").toList :: t1 :: rest))
        = some (("ERR invalid drive id\n").toList, none))
    ∧ (∀ t2 t3 rest, k.fddNum ≤ toUint8 (atoi t1) →
      replyCall (dispatch k (("fddload").toList :: t1 :: t2 :: t3 :: rest))
        = some (("ERR invalid arguments\n").toList, none))
    ∧ (∀ rest, k.fddNum ≤ toUint8 (atoi t1) →
      replyCall (dispatch k (("fddeject").toList :: t1 :: rest))
        = some (("ERR invalid drive id\n").toList, none))
    ∧ (∀ t2 t3 rest, k.moNum ≤ toUint8 (atoi t1) →
      replyCall (dispatch k (("moload").toList :: t1 :: t2 :: t3 :: rest))
        = some (("ERR invalid arguments\n").toList, none))
    ∧ (∀ rest, k.moNum ≤ toUint8 (atoi t1) →
      replyCall (dispatch k (("moeject").toList :: t1 :: rest))
        = some (("ERR invalid drive id\n").toList, none))
    ∧ (∀ t2 t3 rest, k.rdiskNum ≤ toUint8 (atoi t1) →
      replyCall (dispatch k (("rdiskload").toList :: t1 :: t2 :: t3 :: rest))
        = some (("ERR invalid arguments\n").toList, none))
    ∧ (∀ rest, k.rdiskNum ≤ toUint8 (atoi t1) →
      replyCall (dispatch k (("rdiskeject").toList :: t1 :: rest))
        = some (("ERR invalid drive id\n").toList, none))
    ∧ (∀ t2 t3 rest, 2 ≤ toUint8 (atoi t1) →
      replyCall (dispatch k (("cartload").toList :: t1 :: t2 :: t3 :: rest))
        = some (("ERR invalid arguments\n").toList, none))
    ∧ (∀ rest, 2 ≤ toUint8 (atoi t1) →
      replyCall (dispatch k (("carteject").toList :: t1 :: rest))
        = some (("ERR invalid drive id\n").toList, none)) := by
  refine ⟨?_, ?_, ?_, ?_, ?_, ?_, ?_, ?_, ?_, ?_⟩
  · intro t2 rest h
    rw [dispatch_cdload]
    simp only [cdloadHandler, List.getD_cons_succ, List.getD_cons_zero]
    rw [if_pos h]
    rfl
  · intro rest h
    rw [dispatch_cdeject]
    exact eject_invalid _ _ _ _ _ _ h
  · intro t2 t3 rest h
    rw [dispatch_fddload]
    exact load3_invalid _ _ _ _ _ _ h
  · intro rest h
    rw [dispatch_fddeject]
    exact eject_invalid _ _ _ _ _ _ h
  · intro t2 t3 rest h
    rw [dispatch_moload]
    exact load3_invalid _ _ _ _ _ _ h
  · intro rest h
    rw [dispatch_moeject]
    exact eject_invalid _ _ _ _ _ _ h
  · intro t2 t3 rest h
    rw [dispatch_rdiskload]
    exact load3_invalid _ _ _ _ _ _ h
  · intro rest h
    rw [dispatch_rdiskeject]
    exact eject_invalid _ _ _ _ _ _ h
  · intro t2 t3 rest h
    rw [dispatch_cartload]
    exact load3_invalid _ _ _ _ _ _ h
  · intro rest h
    rw [dispatch_carteject]
    exact eject_invalid _ _ _ _ _ _ h

/-- Witness for the amended claim C1 at `cdeject 200` with CDROM_NUM = 1. -/
theorem c1_witness :
    (Counts.mk 1 1 1 1).cdromNum ≤ toUint8 (atoi (("200").toList))
    ∧ replyCall (dispatch ⟨1, 1, 1, 1⟩ [("cdeject").toList, ("200").toList])
        = some (("ERR invalid drive id\n").toList, none) :=
  ⟨by decide, (c1_theorem ⟨1, 1, 1, 1⟩ (("200").toList)).2.1 [] (by decide)⟩

/-- Claim C10: the id is truncated to `uint8_t` before the range check,
so the textual id `256` — numerically at or above every class's unit
count — wraps to drive 0 and is accepted: `cdeject 256` ejects drive 0
and `fddload 256 x 1` mounts on drive 0. -/
theorem c10_theorem (k : Counts) (h1 : 0 < k.cdromNum) (h2 : k.cdromNum ≤ 255)
    (h3 : 0 < k.fddNum) (h4 : k.fddNum ≤ 255) :
    toUint8 (atoi (("256").toList)) = 0
    ∧ k.cdromNum ≤ 256 ∧ k.fddNum ≤ 256
    ∧ replyCall (dispatch k [("cdeject").toList, ("256").toList])
        = some (("OK cdrom 0 ejected\n").toList, some (Call.cdromMount 0 []))
    ∧ replyCall (dispatch k [("fddload").toList, ("256").toList, ("x").toList, ("1").toList])
        = some (("OK fdd 0 loaded\n").toList,
            some (Call.floppyMount 0 (("x").toList) (some 1))) := by
  have hid : toUint8 (atoi (("256").toList)) = 0 := by decide
  refine ⟨hid, by omega, by omega, ?_, ?_⟩
  · rw [dispatch_cdeject]
    simp only [ejectHandler, List.getD_cons_succ, List.getD_cons_zero, hid]
    rw [if_neg (by omega)]
    decide
  · rw [dispatch_fddload]
    have hm : media3 [("fddload").toList, ("256").toList, ("x").toList, ("1").toList]
        = ⟨false, 0, ("x").toList, some 1, true⟩ := by decide
    simp only [load3Handler, hm]
    rw [if_neg (by simpa using by omega : ¬ (false || decide (k.fddNum ≤ 0)) = true)]
    decide

/-- Witness for claim C10 with CDROM_NUM = 8, FDD_NUM = 4. -/
theorem c10_witness :
    (0 < (Counts.mk 4 8 4 4).cdromNum ∧ (Counts.mk 4 8 4 4).cdromNum ≤ 255
      ∧ 0 < (Counts.mk 4 8 4 4).fddNum ∧ (Counts.mk 4 8 4 4).fddNum ≤ 255)
    ∧ (toUint8 (atoi (("256").toList)) = 0
        ∧ (Counts.mk 4 8 4 4).cdromNum ≤ 256 ∧ (Counts.mk 4 8 4 4).fddNum ≤ 256
        ∧ replyCall (dispatch ⟨4, 8, 4, 4⟩ [("cdeject").toList, ("256").toList])
            = some (("OK cdrom 0 ejected\n").toList, some (Call.cdromMount 0 []))
        ∧ replyCall (dispatch ⟨4, 8, 4, 4⟩
              [("fddload").toList, ("256").toList, ("x").toList, ("1").toList])
            = some (("OK fdd 0 loaded\n").toList,
                some (Call.floppyMount 0 (("x").toList) (some 1)))) :=
  ⟨⟨by decide, by decide, by decide, by decide⟩,
    c10_theorem ⟨4, 8, 4, 4⟩ (by decide) (by decide) (by decide) (by decide)⟩

/-- Claim C3 fails on the code: with zero registered sessions the poller
body is skipped by the `continue` at line 767, so the previous snapshot
is not advanced to the current values (shown at a table whose only
floppy unit just became active). -/
theorem c3_counterexample :
    (ctrlLedTick 0
        ⟨[⟨true, false, false⟩], [], [], [], [], []⟩
        ⟨[(⟨false, false⟩, false)], [], [], [], [], []⟩).2
      ≠ snapOf ⟨[⟨true, false, false⟩], [], [], [], [], []⟩ := by
  decide

/-- Claim C3, amended: on a poller tick with zero registered sessions
the body is skipped entirely — no broadcast call is made and the
previous snapshot is left unchanged (edge-detection state does not
advance). -/
theorem c3_theorem (ms : MachineStatus) (prev : PrevState) :
    ctrlLedTick 0 ms prev = ([], prev) := rfl

/-- Claim C6: the registry never grows beyond `CTRL_MAX_CLIENTS` (8)
under accept and remove, and a connection accepted while 8 sessions are
registered is sent `ERR too many clients`, closed at once, and not
added, leaving the 8 sessions unchanged. -/
theorem c6_theorem (reg : List ClientSlot) (fd : Int) (idx : Nat)
    (h : reg.length ≤ CTRL_MAX_CLIENTS) :
    (acceptClient reg fd).1.length ≤ CTRL_MAX_CLIENTS
    ∧ (removeClient reg idx).length ≤ CTRL_MAX_CLIENTS
    ∧ (reg.length = CTRL_MAX_CLIENTS →
        acceptClient reg fd = (reg, some (("ERR too many clients\n").toList), true)) := by
  refine ⟨?_, ?_, ?_⟩
  · unfold acceptClient
    split
    · simpa using h
    · simp only [List.length_append, List.length_cons, List.length_nil]
      omega
  · unfold removeClient
    split
    · calc (reg.eraseIdx idx).length ≤ reg.length := reg.length_eraseIdx_le idx
        _ ≤ CTRL_MAX_CLIENTS := h
    · exact h
  · intro h8
    unfold acceptClient
    rw [if_pos (le_of_eq h8.symm)]

/-- Claim C9's failing input: on the line `fddload 0 ' 1` the third
token is a lone quote character, the accumulated path is empty after the
leading-quote strip, and the parser evaluates `fn[strlen(fn) - 1]` with
`strlen(fn) = 0` — an out-of-bounds read, contradicting the claim that
the parser only reads indexes 0..length-1 of a non-empty path. -/
theorem c9_theorem :
    (media3 [("fddload").toList, ("0").toList, [sq], ("1").toList]).ok = false := by
  decide

/-- Claim C2 fails on the code: the closing test accepts either quote
character, not only the one that opened the path.  On
`fddload 0 'a" b' 1` the code closes at the token `'a"` (because the
accumulated path then ends in `"`), storing write-protect 0 from the
token `b'`, while the claim's same-quote rule closes at `b'` and stores
write-protect 1 from the token `1`.  The input is one on which the
parser performs no out-of-bounds access (`ok = true`). -/
theorem c2_counterexample :
    (media3 [("fddload").toList, ("0").toList, [sq, 'a', dq], ['b', sq], ("1").toList]).wp
        ≠ c2OrigWp [("fddload").toList, ("0").toList, [sq, 'a', dq], ['b', sq], ("1").toList]
    ∧ (media3 [("fddload").toList, ("0").toList, [sq, 'a', dq], ['b', sq], ("1").toList]).ok
        = true := by
  decide

/-- Claim C4 fails on the code: the space-rejoin only exists in the
`cdload` handler.  For `fddload 0 a b 1` — a quote-free path with an
embedded space — the claim predicts the delivered path `a b`, but the
3-argument parser delivers exactly the third token `a` (with FDD_NUM
arbitrary but positive, here 1). -/
theorem c4_counterexample :
    ¬ (∀ k : Counts, 0 < k.fddNum →
        callPath (callOf (dispatch k
            [("fddload").toList, ("0").toList, ("a").toList, ("b").toList, ("1").toList]))
          = some (("a b").toList)) := by
  intro h
  have h1 := h ⟨1, 1, 1, 1⟩ (by decide)
  revert h1
  decide

lemma foldl_crcByte_flatMap {α : Type} (L : List α) (f : α → List Nat) (crc : Nat) :
    (L.flatMap f).foldl crcByte crc
      = L.foldl (fun c a => (f a).foldl crcByte c) crc := by
  induction L generalizing crc with
  | nil => rfl
  | cons a L ih => simp only [List.flatMap_cons, List.foldl_append, List.foldl_cons, ih]

lemma flatMap_congr_mem {α β : Type} (L : List α) (f g : α → List β)
    (h : ∀ a ∈ L, f a = g a) : L.flatMap f = L.flatMap g := by
  induction L with
  | nil => rfl
  | cons a L ih =>
    simp only [List.flatMap_cons]
    rw [h a (by simp), ih fun x hx => h x (by simp [hx])]

lemma regionBytes_foldl (line : Nat → Nat → Pixel) (bx byy rx ry rw rh crc : Nat) :
    (regionBytes line bx byy rx ry rw rh).foldl crcByte crc
      = (List.range rh).foldl (fun c dy =>
          (List.range rw).foldl (fun c2 dx =>
            (pixelBGR (line (byy + ry + dy) (bx + rx + dx))).foldl crcByte c2) c) crc := by
  unfold regionBytes
  rw [foldl_crcByte_flatMap]
  congr 1
  funext c dy
  rw [foldl_crcByte_flatMap]

/-- Claim C7: for every frame buffer and non-empty clamped region, the
screencrc loop computes exactly the bit-reflected CRC-32 (polynomial
0xEDB88320, initial value 0xFFFFFFFF, final XOR 0xFFFFFFFF, one byte at
a time) of the blue/green/red bytes of the region's pixels in row-major
order; consequently two frames that agree on those three bytes — for
example frames differing only in alpha — report the same checksum. -/
theorem c7_theorem (f g : Nat → Nat → Pixel) (bx byy : Nat)
    (bw bh rx ry rw rh rx1 ry1 rw1 rh1 : Int)
    (_hc : clampRegion bw bh rx ry rw rh = some (rx1, ry1, rw1, rh1))
    (hbgr : ∀ dy : Nat, dy < rh1.toNat → ∀ dx : Nat, dx < rw1.toNat →
      (f (byy + ry1.toNat + dy) (bx + rx1.toNat + dx)).b
          = (g (byy + ry1.toNat + dy) (bx + rx1.toNat + dx)).b
        ∧ (f (byy + ry1.toNat + dy) (bx + rx1.toNat + dx)).g
          = (g (byy + ry1.toNat + dy) (bx + rx1.toNat + dx)).g
        ∧ (f (byy + ry1.toNat + dy) (bx + rx1.toNat + dx)).r
          = (g (byy + ry1.toNat + dy) (bx + rx1.toNat + dx)).r) :
    screencrcRaw f bx byy rx1.toNat ry1.toNat rw1.toNat rh1.toNat
        = crc32 (regionBytes f bx byy rx1.toNat ry1.toNat rw1.toNat rh1.toNat)
    ∧ screencrcRaw f bx byy rx1.toNat ry1.toNat rw1.toNat rh1.toNat
        = screencrcRaw g bx byy rx1.toNat ry1.toNat rw1.toNat rh1.toNat := by
  have hbytes : regionBytes f bx byy rx1.toNat ry1.toNat rw1.toNat rh1.toNat
      = regionBytes g bx byy rx1.toNat ry1.toNat rw1.toNat rh1.toNat := by
    unfold regionBytes
    refine flatMap_congr_mem _ _ _ fun dy hdy => ?_
    refine flatMap_congr_mem _ _ _ fun dx hdx => ?_
    have hb := hbgr dy (List.mem_range.mp hdy) dx (List.mem_range.mp hdx)
    unfold pixelBGR
    rw [hb.1, hb.2.1, hb.2.2]
  have key : ∀ line : Nat → Nat → Pixel,
      screencrcRaw line bx byy rx1.toNat ry1.toNat rw1.toNat rh1.toNat
        = crc32 (regionBytes line bx byy rx1.toNat ry1.toNat rw1.toNat rh1.toNat) := by
    intro line
    unfold screencrcRaw crc32
    rw [regionBytes_foldl]
  exact ⟨key f, by rw [key f, key g, hbytes]⟩

/-- Witness for claim C7: a 1-by-1 region over two frames differing only
in the alpha byte. -/
theorem c7_witness :
    (clampRegion 1 1 0 0 1 1 = some (0, 0, 1, 1)
      ∧ (∀ dy : Nat, dy < (1 : Int).toNat → ∀ dx : Nat, dx < (1 : Int).toNat →
          ((fun _ _ => Pixel.mk 1 2 3 4) (0 + (0 : Int).toNat + dy)
              (0 + (0 : Int).toNat + dx)).b
              = ((fun _ _ => Pixel.mk 1 2 3 5) (0 + (0 : Int).toNat + dy)
                  (0 + (0 : Int).toNat + dx)).b
            ∧ ((fun _ _ => Pixel.mk 1 2 3 4) (0 + (0 : Int).toNat + dy)
                (0 + (0 : Int).toNat + dx)).g
              = ((fun _ _ => Pixel.mk 1 2 3 5) (0 + (0 : Int).toNat + dy)
                  (0 + (0 : Int).toNat + dx)).g
            ∧ ((fun _ _ => Pixel.mk 1 2 3 4) (0 + (0 : Int).toNat + dy)
                (0 + (0 : Int).toNat + dx)).r
              = ((fun _ _ => Pixel.mk 1 2 3 5) (0 + (0 : Int).toNat + dy)
                  (0 + (0 : Int).toNat + dx)).r))
    ∧ (screencrcRaw (fun _ _ => ⟨1, 2, 3, 4⟩) 0 0 (0 : Int).toNat (0 : Int).toNat
          (1 : Int).toNat (1 : Int).toNat
        = crc32 (regionBytes (fun _ _ => ⟨1, 2, 3, 4⟩) 0 0 (0 : Int).toNat
            (0 : Int).toNat (1 : Int).toNat (1 : Int).toNat)
      ∧ screencrcRaw (fun _ _ => ⟨1, 2, 3, 4⟩) 0 0 (0 : Int).toNat (0 : Int).toNat
          (1 : Int).toNat (1 : Int).toNat
        = screencrcRaw (fun _ _ => ⟨1, 2, 3, 5⟩) 0 0 (0 : Int).toNat (0 : Int).toNat
          (1 : Int).toNat (1 : Int).toNat) :=
  ⟨⟨by decide, by decide⟩,
    c7_theorem (fun _ _ => ⟨1, 2, 3, 4⟩) (fun _ _ => ⟨1, 2, 3, 5⟩) 0 0
      1 1 0 0 1 1 0 0 1 1 (by decide) (by decide)⟩

lemma flatMap_range_succ {β : Type} (n : Nat) (f : Nat → List β) :
    (List.range (n + 1)).flatMap f = f 0 ++ (List.range n).flatMap (fun j => f (j + 1)) := by
  rw [List.range_succ_eq_map, List.flatMap_cons]
  congr 1
  rw [List.flatMap_def, List.map_map, ← List.flatMap_def]
  refine flatMap_congr_mem _ _ _ fun j _ => ?_
  simp [Function.comp, Nat.succ_eq_add_one]

lemma expectedMedia_cons (name : Str) (k : Nat) (c : DevStatus) (cs : List DevStatus)
    (p : LedPrev × Bool) (ps : List (LedPrev × Bool)) :
    expectedMedia name k (c :: cs) (p :: ps)
      = unitMediaSpec name k c p ++ expectedMedia name (k + 1) cs ps := by
  unfold expectedMedia
  simp only [List.length_cons]
  rw [flatMap_range_succ]
  congr 1
  refine flatMap_congr_mem _ _ _ fun j _ => ?_
  have hk : k + (j + 1) = k + 1 + j := by omega
  simp only [List.getD_cons_succ, hk]

lemma expectedLed_cons (name : Str) (k : Nat) (c : DevStatus) (cs : List DevStatus)
    (p : LedPrev) (ps : List LedPrev) :
    expectedLed name k (c :: cs) (p :: ps)
      = unitLedSpec name k c p ++ expectedLed name (k + 1) cs ps := by
  unfold expectedLed
  simp only [List.length_cons]
  rw [flatMap_range_succ]
  congr 1
  refine flatMap_congr_mem _ _ _ fun j _ => ?_
  have hk : k + (j + 1) = k + 1 + j := by omega
  simp only [List.getD_cons_succ, hk]

lemma pollClassMedia_spec (name : Str) :
    ∀ (cur : List DevStatus) (prev : List (LedPrev × Bool)) (k : Nat),
      cur.length = prev.length →
      (pollClassMedia name k cur prev).1 = expectedMedia name k cur prev
      ∧ (pollClassMedia name k cur prev).2
          = cur.map (fun c => (LedPrev.mk c.active c.write_active, c.empty)) := by
  intro cur
  induction cur with
  | nil =>
    intro prev k _
    exact ⟨rfl, rfl⟩
  | cons c cs ih =>
    intro prev k h
    cases prev with
    | nil => simp at h
    | cons p ps =>
      obtain ⟨⟨pa, pw⟩, pe⟩ := p
      have hlen : cs.length = ps.length := by simpa using h
      obtain ⟨ih1, ih2⟩ := ih ps (k + 1) hlen
      constructor
      · show (pollClassMedia name k (c :: cs) ((⟨pa, pw⟩, pe) :: ps)).1 = _
        rw [expectedMedia_cons]
        simp only [pollClassMedia, unitMediaSpec, ih1, List.append_assoc]
      · show (pollClassMedia name k (c :: cs) ((⟨pa, pw⟩, pe) :: ps)).2 = _
        simp only [pollClassMedia, ih2, List.map_cons]
        congr 1
        have hpl : (if ((c.active != pa) || (c.write_active != pw)) = true
            then LedPrev.mk c.active c.write_active else LedPrev.mk pa pw)
            = LedPrev.mk c.active c.write_active := by
          by_cases hled : ((c.active != pa) || (c.write_active != pw)) = true
          · simp [hled]
          · simp only [Bool.or_eq_true, bne_iff_ne] at hled
            push_neg at hled
            simp [hled.1, hled.2]
        have hpe : (if (c.empty != pe) = true then c.empty else pe) = c.empty := by
          by_cases hmed : (c.empty != pe) = true
          · simp [hmed]
          · simp only [bne_iff_ne] at hmed
            push_neg at hmed
            simp [hmed]
        simp only [hpl, hpe]

lemma pollClassLed_spec (name : Str) :
    ∀ (cur : List DevStatus) (prev : List LedPrev) (k : Nat),
      cur.length = prev.length →
      (pollClassLed name k cur prev).1 = expectedLed name k cur prev
      ∧ (pollClassLed name k cur prev).2
          = cur.map (fun c => LedPrev.mk c.active c.write_active) := by
  intro cur
  induction cur with
  | nil =>
    intro prev k _
    exact ⟨rfl, rfl⟩
  | cons c cs ih =>
    intro prev k h
    cases prev with
    | nil => simp at h
    | cons p ps =>
      obtain ⟨pa, pw⟩ := p
      have hlen : cs.length = ps.length := by simpa using h
      obtain ⟨ih1, ih2⟩ := ih ps (k + 1) hlen
      constructor
      · show (pollClassLed name k (c :: cs) (LedPrev.mk pa pw :: ps)).1 = _
        rw [expectedLed_cons]
        simp only [pollClassLed, unitLedSpec, ih1, List.append_assoc]
      · show (pollClassLed name k (c :: cs) (LedPrev.mk pa pw :: ps)).2 = _
        simp only [pollClassLed, ih2, List.map_cons]
        congr 1
        by_cases hled : ((c.active != pa) || (c.write_active != pw)) = true
        · simp [hled]
        · simp only [Bool.or_eq_true, bne_iff_ne] at hled
          push_neg at hled
          simp [hled.1, hled.2]

lemma splitNl_rem_le : ∀ s : Str, (splitNl s).2.length ≤ s.length := by
  intro s
  induction s with
  | nil => simp [splitNl]
  | cons c cs ih =>
    simp only [splitNl]
    split
    · simp
    · split
      · simpa using Nat.le_succ_of_le ih
      · rcases h2 : splitNl cs with ⟨lines, rem⟩
        cases lines with
        | nil => simp
        | cons l ls =>
          rw [h2] at ih
          simpa using Nat.le_succ_of_le ih

lemma splitNl_line_len : ∀ s : Str, ∀ l ∈ (splitNl s).1, l.length + 1 ≤ s.length := by
  intro s
  induction s with
  | nil => simp [splitNl]
  | cons c cs ih =>
    simp only [splitNl]
    split
    · simp
    · split
      · intro l hl
        simp only [List.length_cons]
        rcases List.mem_cons.mp hl with hl | hl
        · simp [hl]
        · exact Nat.le_succ_of_le (ih l hl)
      · rcases h2 : splitNl cs with ⟨lines, rem⟩
        cases lines with
        | nil => simp
        | cons t ls =>
          rw [h2] at ih
          intro l hl
          simp only [List.length_cons]
          rcases List.mem_cons.mp hl with hl | hl
          · subst hl
            simpa using ih t (by simp)
          · exact Nat.le_succ_of_le (ih l (by simp [hl]))

lemma splitNl_join : ∀ s : Str, joinNl (splitNl s).1 ++ (splitNl s).2 = s := by
  intro s
  induction s with
  | nil => rfl
  | cons c cs ih =>
    simp only [splitNl]
    split
    · simp [joinNl]
    · split
      · rename_i h0 h1
        subst h1
        simp only [joinNl, List.flatMap_cons, List.nil_append, List.cons_append,
          List.append_assoc] at ih ⊢
        rw [ih]
      · rcases h2 : splitNl cs with ⟨lines, rem⟩
        cases lines with
        | nil => simp [joinNl]
        | cons t ls =>
          rw [h2] at ih
          simp only [joinNl, List.flatMap_cons] at ih ⊢
          simp only [List.cons_append, List.append_assoc] at ih ⊢
          rw [ih]

lemma splitNl_no_nl : ∀ s : Str, (∀ c ∈ s, c ≠ nlC) → splitNl s = ([], s) := by
  intro s
  induction s with
  | nil => intro _; rfl
  | cons c cs ih =>
    intro h
    simp only [splitNl]
    split
    · rfl
    · split
      · rename_i h0 h1
        exact absurd h1 (h c (by simp))
      · rw [ih fun x hx => h x (by simp [hx])]

lemma runSession_inv : ∀ (sizes : List Nat) (buf pend : Str),
    buf.length + 1 ≤ CTRL_BUF_SIZE →
    (∀ l ∈ (runSession buf pend sizes).1, l.length + 2 ≤ CTRL_BUF_SIZE)
    ∧ (∀ b, (runSession buf pend sizes).2 = some b → b.length + 1 ≤ CTRL_BUF_SIZE) := by
  intro sizes
  induction sizes with
  | nil =>
    intro buf pend h
    refine ⟨by simp [runSession], ?_⟩
    intro b hb
    simp only [runSession, Option.some_inj] at hb
    simpa [← hb] using h
  | cons sz rest ih =>
    intro buf pend h
    simp only [runSession]
    split
    · simp
    · split
      · simp
      · rename_i hfull hpend
        have hlt : buf.length + 1 < CTRL_BUF_SIZE := Nat.lt_of_not_le hfull
        set n := min (CTRL_BUF_SIZE - buf.length - 1) (min (max sz 1) pend.length) with hn
        have hb2 : (buf ++ pend.take n).length + 1 ≤ CTRL_BUF_SIZE := by
          simp only [List.length_append, List.length_take]
          omega
        obtain ⟨ih1, ih2⟩ := ih (splitNl (buf ++ pend.take n)).2 (pend.drop n)
          (le_trans (by simpa using Nat.succ_le_succ (splitNl_rem_le (buf ++ pend.take n))) hb2)
        refine ⟨?_, ih2⟩
        intro l hl
        rcases List.mem_append.mp hl with hl | hl
        · have := splitNl_line_len (buf ++ pend.take n) l hl
          omega
        · exact ih1 l hl

lemma runSession_prefix : ∀ (sizes : List Nat) (buf pend : Str),
    ∃ rest, joinNl (runSession buf pend sizes).1 ++ rest = buf ++ pend := by
  intro sizes
  induction sizes with
  | nil =>
    intro buf pend
    exact ⟨buf ++ pend, by simp [runSession, joinNl]⟩
  | cons sz rest ih =>
    intro buf pend
    simp only [runSession]
    split
    · exact ⟨buf ++ pend, by simp [joinNl]⟩
    · split
      · exact ⟨buf ++ pend, by simp [joinNl]⟩
      · set n := min (CTRL_BUF_SIZE - buf.length - 1) (min (max sz 1) pend.length) with hn
        obtain ⟨r, hr⟩ := ih (splitNl (buf ++ pend.take n)).2 (pend.drop n)
        refine ⟨r, ?_⟩
        have hj := splitNl_join (buf ++ pend.take n)
        simp only [joinNl] at hr hj ⊢
        rw [List.flatMap_append, List.append_assoc, hr, ← List.append_assoc, hj,
          List.append_assoc, List.take_append_drop]

lemma runSession_overflow : ∀ (sizes : List Nat) (buf pend P : Str),
    buf ++ pend = P →
    buf.length ≤ CTRL_BUF_SIZE - 1 →
    (∀ c ∈ P.take (CTRL_BUF_SIZE - 1), c ≠ nlC) →
    CTRL_BUF_SIZE - buf.length ≤ sizes.length →
    runSession buf pend sizes = ([], none) := by
  intro sizes
  induction sizes with
  | nil =>
    intro buf pend P _ hlen _ hsz
    simp only [List.length_nil] at hsz
    have : CTRL_BUF_SIZE ≤ 4095 := by
      calc CTRL_BUF_SIZE ≤ buf.length := by omega
        _ ≤ CTRL_BUF_SIZE - 1 := hlen
        _ = 4095 := by norm_num [CTRL_BUF_SIZE]
    norm_num [CTRL_BUF_SIZE] at this
  | cons sz rest ih =>
    intro buf pend P hP hlen hnl hsz
    simp only [runSession]
    split
    · rfl
    · split
      · rfl
      · rename_i hfull hpend
        have hlt : buf.length + 1 < CTRL_BUF_SIZE := Nat.lt_of_not_le hfull
        have hpl : 1 ≤ pend.length := by
          rcases Nat.eq_zero_or_pos pend.length with h0 | h0
          · exact absurd h0 hpend
          · exact h0
        set n := min (CTRL_BUF_SIZE - buf.length - 1) (min (max sz 1) pend.length) with hn
        have hn1 : 1 ≤ n := by
          have : 1 ≤ max sz 1 := le_max_right sz 1
          simp only [hn, le_min_iff]
          omega
        have hnp : n ≤ pend.length := by simp only [hn]; omega
        have htl : (pend.take n).length = n := by
          simp [List.length_take]
          omega
        have hb2len : (buf ++ pend.take n).length = buf.length + n := by
          simp [List.length_append, htl]
        have hb2P : buf ++ pend.take n = P.take (buf.length + n) := by
          rw [← hP, ← htl]
          rw [show (pend.take n).length = n from htl]
          exact (List.take_append n).symm
        have hb2nl : ∀ c ∈ buf ++ pend.take n, c ≠ nlC := by
          intro c hc
          rw [hb2P] at hc
          have hsub : P.take (buf.length + n) ⊆ P.take (CTRL_BUF_SIZE - 1) := by
            intro x hx
            have : P.take (buf.length + n)
                = (P.take (CTRL_BUF_SIZE - 1)).take (buf.length + n) := by
              rw [List.take_take]
              congr 1
              omega
            rw [this] at hx
            exact List.take_subset _ _ hx
          exact hnl c (hsub hc)
        rw [splitNl_no_nl _ hb2nl]
        have hrec := ih (buf ++ pend.take n) (pend.drop n) P
          (by rw [List.append_assoc, List.take_append_drop]; exact hP)
          (by rw [hb2len]; omega)
          hnl
          (by
            rw [hb2len]
            simp only [List.length_cons] at hsz
            omega)
        rw [hrec]
        rfl

/-- Claim C5: for every byte stream and every read-size schedule,
starting from an empty buffer, (i) every intermediate and final buffered
length stays strictly below CTRL_BUF_SIZE, (ii) every line handed to the
dispatcher fits the buffer (length at most CTRL_BUF_SIZE - 2), (iii) the
dispatched lines are exactly an initial run of the stream's
newline-terminated lines (so no prefix of an unterminated line is ever
dispatched), and (iv) a stream whose first CTRL_BUF_SIZE - 1 bytes
contain no newline — an input line too long to fit — leads to the
session being disconnected with nothing dispatched, once enough
readiness events have occurred. -/
theorem c5_theorem (pend : Str) (sizes : List Nat) :
    (∀ l ∈ (runSession [] pend sizes).1, l.length + 2 ≤ CTRL_BUF_SIZE)
    ∧ (∀ b, (runSession [] pend sizes).2 = some b → b.length + 1 ≤ CTRL_BUF_SIZE)
    ∧ (∃ rest, joinNl (runSession [] pend sizes).1 ++ rest = pend)
    ∧ ((∀ c ∈ pend.take (CTRL_BUF_SIZE - 1), c ≠ nlC) →
        CTRL_BUF_SIZE - 1 ≤ pend.length →
        CTRL_BUF_SIZE ≤ sizes.length →
        runSession [] pend sizes = ([], none)) := by
  obtain ⟨h1, h2⟩ := runSession_inv sizes [] pend (by norm_num [CTRL_BUF_SIZE])
  refine ⟨h1, h2, ?_, ?_⟩
  · simpa using runSession_prefix sizes [] pend
  · intro hnl _ hsz
    exact runSession_overflow sizes [] pend pend (by simp) (by simp) hnl
      (by simpa using hsz)

/-- Witness for claim C5: a stream of 4095 bytes with no newline and a
schedule of 4096 single-byte reads; the session is disconnected with no
line dispatched. -/
theorem c5_witness :
    ((∀ c ∈ (List.replicate 4095 'a').take (CTRL_BUF_SIZE - 1), c ≠ nlC)
      ∧ CTRL_BUF_SIZE - 1 ≤ (List.replicate 4095 'a').length
      ∧ CTRL_BUF_SIZE ≤ (List.replicate (4096 : Nat) (1 : Nat)).length)
    ∧ runSession [] (List.replicate 4095 'a') (List.replicate 4096 1) = ([], none) := by
  have p1 : ∀ c ∈ (List.replicate 4095 'a').take (CTRL_BUF_SIZE - 1), c ≠ nlC := by
    intro c hc
    have := List.eq_of_mem_replicate (List.take_subset _ _ hc)
    subst this
    decide
  have p2 : CTRL_BUF_SIZE - 1 ≤ (List.replicate 4095 'a').length := by
    simp only [List.length_replicate, CTRL_BUF_SIZE]
    omega
  have p3 : CTRL_BUF_SIZE ≤ (List.replicate (4096 : Nat) (1 : Nat)).length := by
    simp only [List.length_replicate, CTRL_BUF_SIZE]
    omega
  exact ⟨⟨p1, p2, p3⟩,
    (c5_theorem (List.replicate 4095 'a') (List.replicate 4096 1)).2.2.2 p1 p2 p3⟩

/-- Claim C8 fails on the code: a unit whose `active` and `write_active`
fields both changed produces a single `!led` broadcast line, not one
line per changed field (two fields changed here, one line emitted). -/
theorem c8_counterexample :
    (ctrlLedTick 1 ⟨[⟨true, true, false⟩], [], [], [], [], []⟩
        ⟨[(⟨false, false⟩, false)], [], [], [], [], []⟩).1.length
      ≠ c8FieldCount ⟨true, true, false⟩ ⟨false, false⟩ false := by
  decide

/-- Claim C8, amended: on every poller tick with at least one registered
session, each unit contributes no broadcast line when its watched fields
are unchanged, exactly one `!led <class> <id> <state>` line when the
(active, writeActive) pair changed — a single line even when both
booleans of the pair changed — and exactly one
`!media <class> <id> <inserted|ejected>` line when its empty flag
changed, in source class order; the previous snapshot is then equal to
the newly observed values. -/
theorem c8_theorem (n : Nat) (ms : MachineStatus) (prev : PrevState)
    (hn : n ≠ 0)
    (h1 : ms.fdd.length = prev.fdd.length)
    (h2 : ms.cdrom.length = prev.cdrom.length)
    (h3 : ms.hdd.length = prev.hdd.length)
    (h4 : ms.rdisk.length = prev.rdisk.length)
    (h5 : ms.mo.length = prev.mo.length)
    (h6 : ms.net.length = prev.net.length) :
    (ctrlLedTick n ms prev).1
      = expectedMedia (("fdd").toList) 0 ms.fdd prev.fdd
        ++ expectedMedia (("cdrom").toList) 0 ms.cdrom prev.cdrom
        ++ expectedLed (("hdd").toList) 0 ms.hdd prev.hdd
        ++ expectedMedia (("rdisk").toList) 0 ms.rdisk prev.rdisk
        ++ expectedMedia (("mo").toList) 0 ms.mo prev.mo
        ++ expectedLed (("net").toList) 0 ms.net prev.net
    ∧ (ctrlLedTick n ms prev).2 = snapOf ms := by
  obtain ⟨f1, f2⟩ := pollClassMedia_spec (("fdd").toList) ms.fdd prev.fdd 0 h1
  obtain ⟨c1, c2⟩ := pollClassMedia_spec (("cdrom").toList) ms.cdrom prev.cdrom 0 h2
  obtain ⟨d1, d2⟩ := pollClassLed_spec (("hdd").toList) ms.hdd prev.hdd 0 h3
  obtain ⟨r1, r2⟩ := pollClassMedia_spec (("rdisk").toList) ms.rdisk prev.rdisk 0 h4
  obtain ⟨m1, m2⟩ := pollClassMedia_spec (("mo").toList) ms.mo prev.mo 0 h5
  obtain ⟨n1, n2⟩ := pollClassLed_spec (("net").toList) ms.net prev.net 0 h6
  unfold ctrlLedTick
  rw [if_neg hn]
  constructor
  · simp only [f1, c1, d1, r1, m1, n1, List.append_assoc]
  · simp only [snapOf, f2, c2, d2, r2, m2, n2]

/-- Witness for the amended claim C8: one floppy unit switching from
idle to read with one session registered. -/
theorem c8_witness :
    ((1 : Nat) ≠ 0
      ∧ (MachineStatus.mk [⟨true, false, false⟩] [] [] [] [] []).fdd.length
          = (PrevState.mk [(⟨false, false⟩, false)] [] [] [] [] []).fdd.length)
    ∧ ((ctrlLedTick 1 ⟨[⟨true, false, false⟩], [], [], [], [], []⟩
          ⟨[(⟨false, false⟩, false)], [], [], [], [], []⟩).1
        = expectedMedia (("fdd").toList) 0 [⟨true, false, false⟩] [(⟨false, false⟩, false)]
          ++ expectedMedia (("cdrom").toList) 0 [] []
          ++ expectedLed (("hdd").toList) 0 [] []
          ++ expectedMedia (("rdisk").toList) 0 [] []
          ++ expectedMedia (("mo").toList) 0 [] []
          ++ expectedLed (("net").toList) 0 [] []
        ∧ (ctrlLedTick 1 ⟨[⟨true, false, false⟩], [], [], [], [], []⟩
            ⟨[(⟨false, false⟩, false)], [], [], [], [], []⟩).2
          = snapOf ⟨[⟨true, false, false⟩], [], [], [], [], []⟩) :=
  ⟨⟨by decide, by decide⟩,
    c8_theorem 1 ⟨[⟨true, false, false⟩], [], [], [], [], []⟩
      ⟨[(⟨false, false⟩, false)], [], [], [], [], []⟩
      (by decide) (by decide) (by decide) (by decide) (by decide) (by decide) (by decide)⟩


lemma joinSp_len_ge (t : Str) (rest : List Str) : t.length ≤ (joinSp (t :: rest)).length := by
  cases rest with
  | nil => simp [joinSp]
  | cons u ts => simp [joinSp]

lemma accJoin_shift (acc t : Str) (rest : List Str) :
    accJoin (acc ++ [spaceC] ++ t) rest = accJoin acc (t :: rest) := by
  cases rest with
  | nil => simp [accJoin, joinSp]
  | cons u ts => simp [accJoin, joinSp, List.append_assoc]

lemma accJoin_len (acc : Str) (t : Str) (rest : List Str) :
    acc.length + t.length + 1 ≤ (accJoin acc (t :: rest)).length := by
  have h := joinSp_len_ge t rest
  simp only [accJoin, List.length_append, List.length_cons]
  omega

lemma cdloadJoin_some_of_lt : ∀ (toks : List Str) (acc : Str),
    (accJoin acc toks).length < PATH_MAX →
    cdloadJoin toks acc false = some (accJoin acc toks) := by
  intro toks
  induction toks with
  | nil => intro acc _; rfl
  | cons t rest ih =>
    intro acc h
    have hle := accJoin_len acc t rest
    simp only [cdloadJoin]
    rw [if_neg (by omega)]
    show cdloadJoin rest (acc ++ [spaceC] ++ t) false = some (accJoin acc (t :: rest))
    rw [ih (acc ++ [spaceC] ++ t) (by rw [accJoin_shift]; exact h)]
    rw [accJoin_shift]

lemma cdloadJoin_none_of_ge : ∀ (toks : List Str) (acc : Str),
    acc.length < PATH_MAX →
    PATH_MAX ≤ (accJoin acc toks).length →
    cdloadJoin toks acc false = none := by
  intro toks
  induction toks with
  | nil =>
    intro acc h1 h2
    simp only [accJoin] at h2
    omega
  | cons t rest ih =>
    intro acc h1 h2
    simp only [cdloadJoin]
    by_cases hc : PATH_MAX ≤ acc.length + t.length + 1
    · rw [if_pos hc]
    · rw [if_neg hc]
      refine ih (acc ++ [spaceC] ++ t) ?_ ?_
      · simp only [List.length_append, List.length_cons, List.length_nil]
        omega
      · rw [accJoin_shift]; exact h2

lemma cdloadJoin_top_some (t : Str) (rest : List Str)
    (h : (joinSp (t :: rest)).length + 2 ≤ PATH_MAX) :
    cdloadJoin (t :: rest) [] true = some (joinSp (t :: rest)) := by
  have hge := joinSp_len_ge t rest
  have hAJ : accJoin t rest = joinSp (t :: rest) := by
    cases rest with
    | nil => simp [accJoin, joinSp]
    | cons u ts => simp [accJoin, joinSp]
  simp only [cdloadJoin]
  rw [if_neg (by simp only [List.length_nil]; omega)]
  show cdloadJoin rest t false = some (joinSp (t :: rest))
  rw [cdloadJoin_some_of_lt rest t (by rw [hAJ]; omega), hAJ]

lemma cdloadJoin_top_none (t : Str) (rest : List Str)
    (h : PATH_MAX ≤ (joinSp (t :: rest)).length) :
    cdloadJoin (t :: rest) [] true = none := by
  have hAJ : accJoin t rest = joinSp (t :: rest) := by
    cases rest with
    | nil => simp [accJoin, joinSp]
    | cons u ts => simp [accJoin, joinSp]
  simp only [cdloadJoin]
  by_cases hc : PATH_MAX ≤ ([] : Str).length + t.length + 1
  · rw [if_pos hc]
  · rw [if_neg hc]
    show cdloadJoin rest t false = none
    refine cdloadJoin_none_of_ge rest t ?_ ?_
    · simp only [List.length_nil] at hc; omega
    · rw [hAJ]; exact h

lemma lastIsQuote_of_no_quote (t : Str) (hq : ∀ x ∈ t, isQuote x = false) :
    lastIsQuote t = false := by
  unfold lastIsQuote
  rcases hg : t.getLast? with _ | g
  · rfl
  · have : g ∈ t := List.mem_of_mem_getLast? hg
    simp [hq g this]

/-- Claim C4, amended: the space-rejoin of the path belongs to the
`cdload` handler only.  For `cdload`, with a valid id, the path handed
to the collaborator is exactly the tokens after the id rejoined with
single spaces whenever the rejoined length stays two short of the path
limit, and a rejoined length at the limit yields `ERR path too long`
with no mount; for the 3-argument load commands an unquoted quote-free
path is delivered as exactly the third token. -/
theorem c4_theorem (k : Counts) (t1 : Str) :
    (∀ t2 rest, toUint8 (atoi t1) < k.cdromNum →
      ((joinSp (t2 :: rest)).length + 2 ≤ PATH_MAX →
        replyCall (dispatch k (("cdload").toList :: t1 :: t2 :: rest))
          = some (("OK cdrom ").toList ++ natToStr (toUint8 (atoi t1))
                ++ (" loaded\n").toList,
              some (Call.cdromMount (toUint8 (atoi t1)) (joinSp (t2 :: rest)))))
      ∧ (PATH_MAX ≤ (joinSp (t2 :: rest)).length →
        replyCall (dispatch k (("cdload").toList :: t1 :: t2 :: rest))
          = some (("ERR path too long\n").toList, none)))
    ∧ (∀ t2 t3 rest, toUint8 (atoi t1) < k.fddNum →
        t2 ≠ [] → (∀ x ∈ t2, isQuote x = false) → t2.length < PATH_MAX →
        replyCall (dispatch k (("fddload").toList :: t1 :: t2 :: t3 :: rest))
          = some (("OK fdd ").toList ++ natToStr (toUint8 (atoi t1))
                ++ (" loaded\n").toList,
              some (Call.floppyMount (toUint8 (atoi t1)) t2 (some (atoi t3))))) := by
  constructor
  · intro t2 rest hv
    constructor
    · intro hlen
      rw [dispatch_cdload]
      simp only [cdloadHandler, List.getD_cons_succ, List.getD_cons_zero,
        List.drop_succ_cons, List.drop_zero]
      rw [if_neg (by omega)]
      rw [cdloadJoin_top_some t2 rest hlen]
      rfl
    · intro hlen
      rw [dispatch_cdload]
      simp only [cdloadHandler, List.getD_cons_succ, List.getD_cons_zero,
        List.drop_succ_cons, List.drop_zero]
      rw [if_neg (by omega)]
      rw [cdloadJoin_top_none t2 rest hlen]
      rfl
  · intro t2 t3 rest hv hne hq hlen
    rcases t2 with _ | ⟨c, t2c⟩
    · exact absurd rfl hne
    rw [dispatch_fddload]
    have hlast : lastIsQuote (c :: t2c) = false := lastIsQuote_of_no_quote _ hq
    have hm : media3 (("fddload").toList :: t1 :: (c :: t2c) :: t3 :: rest)
        = ⟨false, toUint8 (atoi t1), c :: t2c, some (atoi t3), true⟩ := by
      unfold media3
      simp only [List.getD_cons_succ, List.getD_cons_zero, List.head?_cons]
      rw [if_neg (by simp [hq c (by simp)])]
      rw [if_pos hlen]
      simp [stripTrailQ, hlast]
    simp only [load3Handler, hm]
    rw [if_neg (by simp; omega)]
    simp [stripTrailQ, hlast, replyCall]
    decide

/-- Witness for the amended claim C4: `cdload 0 a b` mounts the rejoined
path `a b` on drive 0 with CDROM_NUM = 1. -/
theorem c4_witness :
    (toUint8 (atoi (("0").toList)) < (Counts.mk 1 1 1 1).cdromNum
      ∧ (joinSp ((("a").toList) :: [("b").toList])).length + 2 ≤ PATH_MAX)
    ∧ replyCall (dispatch ⟨1, 1, 1, 1⟩
          [("cdload").toList, ("0").toList, ("a").toList, ("b").toList])
        = some (("OK cdrom ").toList ++ natToStr (toUint8 (atoi (("0").toList)))
              ++ (" loaded\n").toList,
            some (Call.cdromMount (toUint8 (atoi (("0").toList)))
              (joinSp ((("a").toList) :: [("b").toList])))) :=
  ⟨⟨by decide, by decide⟩,
    ((c4_theorem ⟨1, 1, 1, 1⟩ (("0").toList)).1 (("a").toList) [("b").toList]
        (by decide)).1 (by decide)⟩


lemma find?_congr_mem {α : Type} (l : List α) (p q : α → Bool)
    (h : ∀ a ∈ l, p a = q a) : l.find? p = l.find? q := by
  induction l with
  | nil => rfl
  | cons a l ih =>
    by_cases hp : p a = true
    · rw [List.find?_cons_of_pos _ hp, List.find?_cons_of_pos _ ((h a (by simp)) ▸ hp)]
    · rw [List.find?_cons_of_neg _ hp, List.find?_cons_of_neg _ ((h a (by simp)) ▸ hp),
        ih fun x hx => h x (by simp [hx])]

lemma c2FnAt_zero (x : Str) (l : List Str) : c2FnAt (x :: l) 0 = stripLead x := rfl

lemma joinSp_cons₂ (a b : Str) (l : List Str) :
    joinSp (a :: b :: l) = a ++ spaceC :: joinSp (b :: l) := rfl

lemma c2FnAt_cons_succ (t u : Str) (ts : List Str) (k : Nat) :
    c2FnAt (t :: u :: ts) (k + 1) = stripLead t ++ spaceC :: c2FnAt (u :: ts) k := by
  unfold c2FnAt
  rw [List.take_succ_cons, List.map_cons]
  rcases hk : (u :: ts).take (k + 1) with _ | ⟨v, vs⟩
  · simp at hk
  · simp only [List.map_cons, joinSp_cons₂]

lemma c2CloseFrom_nil (pre : Str) : c2CloseFrom pre [] = none := rfl

lemma c2CloseFrom_cons (pre : Str) (t u : Str) (ts : List Str) :
    c2CloseFrom pre (t :: u :: ts)
      = if lastIsQuote (pre ++ stripLead t) then some 0
        else (c2CloseFrom (pre ++ stripLead t ++ [spaceC]) (u :: ts)).map (· + 1) := by
  unfold c2CloseFrom
  rw [show (t :: u :: ts).length = (u :: ts).length + 1 from rfl, List.range_succ_eq_map]
  by_cases h : lastIsQuote (pre ++ stripLead t) = true
  · rw [if_pos h]
    exact List.find?_cons_of_pos _ (by rw [c2FnAt_zero]; exact h)
  · rw [if_neg h]
    rw [List.find?_cons_of_neg _ (by rw [c2FnAt_zero]; exact h)]
    rw [List.find?_map]
    have hq : ∀ k ∈ List.range (u :: ts).length,
        ((fun k => lastIsQuote (pre ++ c2FnAt (t :: u :: ts) k)) ∘ Nat.succ) k
          = (fun k => lastIsQuote (pre ++ stripLead t ++ [spaceC] ++ c2FnAt (u :: ts) k)) k := by
      intro k _
      simp only [Function.comp, Nat.succ_eq_add_one, c2FnAt_cons_succ]
      congr 1
      simp [List.append_assoc]
    rw [find?_congr_mem _ _ _ hq]

lemma media3Loop_spec : ∀ (toks : List Str) (pre : Str) (err ok : Bool),
    (media3Loop toks pre err ok).1 = (c2SpecLoop pre toks).1
    ∧ (media3Loop toks pre err ok).2.2.1 = (c2SpecLoop pre toks).2 := by
  intro toks
  induction toks with
  | nil =>
    intro pre err ok
    simp [media3Loop, c2SpecLoop, c2CloseFrom_nil]
  | cons t rest ih =>
    intro pre err ok
    by_cases h : lastIsQuote (pre ++ stripLead t) = true
    · have hloop : media3Loop (t :: rest) pre err ok
          = (pre ++ stripLead t, err || decide (PATH_MAX ≤ pre.length + t.length),
              (rest.head?).map atoi, ok && decide (pre ++ stripLead t ≠ [])) := by
        simp only [media3Loop]
        rw [if_pos h]
      cases rest with
      | nil =>
        have hcl : c2CloseFrom pre [t] = some 0 := by
          unfold c2CloseFrom
          rw [show ([t] : List Str).length = 1 from rfl]
          rw [show List.range 1 = [0] from rfl]
          exact List.find?_cons_of_pos _ (by rw [c2FnAt_zero]; exact h)
        rw [hloop]
        simp [c2SpecLoop, hcl, c2FnAt_zero]
      | cons u ts =>
        have hcl : c2CloseFrom pre (t :: u :: ts) = some 0 := by
          rw [c2CloseFrom_cons, if_pos h]
        rw [hloop]
        simp [c2SpecLoop, hcl, c2FnAt_zero]
    · have hloop : media3Loop (t :: rest) pre err ok
          = media3Loop rest (pre ++ stripLead t ++ [spaceC])
              (err || decide (PATH_MAX ≤ pre.length + t.length))
              (ok && decide (pre ++ stripLead t ≠ [])) := by
        simp only [media3Loop]
        rw [if_neg h]
      cases rest with
      | nil =>
        have hcl : c2CloseFrom pre [t] = none := by
          unfold c2CloseFrom
          rw [show ([t] : List Str).length = 1 from rfl]
          rw [show List.range 1 = [0] from rfl]
          rw [List.find?_cons_of_neg _ (by rw [c2FnAt_zero]; exact h)]
          rfl
        rw [hloop]
        simp [media3Loop, c2SpecLoop, hcl, c2FnAt_zero, List.append_assoc]
      | cons u ts =>
        obtain ⟨ih1, ih2⟩ := ih (pre ++ stripLead t ++ [spaceC])
          (err || decide (PATH_MAX ≤ pre.length + t.length))
          (ok && decide (pre ++ stripLead t ≠ []))
        have hcl : c2CloseFrom pre (t :: u :: ts)
            = (c2CloseFrom (pre ++ stripLead t ++ [spaceC]) (u :: ts)).map (· + 1) := by
          rw [c2CloseFrom_cons, if_neg h]
        rw [hloop]
        refine ⟨?_, ?_⟩
        · rw [ih1]
          simp only [c2SpecLoop, hcl]
          rcases hc : c2CloseFrom (pre ++ stripLead t ++ [spaceC]) (u :: ts) with _ | k
          · simp only [Option.map_none', List.length_cons]
            rw [show ts.length + 1 + 1 - 1 = (ts.length + 1 - 1) + 1 from by omega]
            rw [c2FnAt_cons_succ]
            simp [List.append_assoc]
          · simp only [Option.map_some']
            rw [c2FnAt_cons_succ]
            simp [List.append_assoc]
        · rw [ih2]
          simp only [c2SpecLoop, hcl]
          rcases hc : c2CloseFrom (pre ++ stripLead t ++ [spaceC]) (u :: ts) with _ | k
          · simp
          · simp

/-- Claim C2, amended: for a 3-argument load line whose third raw token
begins with a quote character, and on which the parser performs no
out-of-bounds path read, the parser concatenates the tokens — each
stripped of one leading quote character — with single spaces re-inserted
until the accumulated path ends in either quote character (not
necessarily the one that opened it); the write-protect flag is read from
the token immediately following that closing token when one exists, and
one trailing quote character is then stripped from the path (a never
closed quote leaves a trailing space and no stored flag).  For a third
token not beginning with a quote, the path is the third token with one
trailing quote character stripped — exactly the third token when it is
quote-free — and the flag is parsed from the fourth. -/
theorem c2_theorem (xargv : List Str) :
    ((∃ c, (xargv.getD 2 []).head? = some c ∧ isQuote c = true) →
      (media3 xargv).ok = true →
      (media3 xargv).fn = stripTrailQ (c2SpecLoop [] (xargv.drop 2)).1
      ∧ (media3 xargv).wp = (c2SpecLoop [] (xargv.drop 2)).2)
    ∧ (∀ hd, (xargv.getD 2 []).head? = some hd → isQuote hd = false →
        (xargv.getD 2 []).length < PATH_MAX →
        (media3 xargv).fn = stripTrailQ (xargv.getD 2 [])
        ∧ (media3 xargv).wp = some (atoi (xargv.getD 3 []))) := by
  constructor
  · rintro ⟨c, hc, hq⟩ _
    obtain ⟨h1, h2⟩ := media3Loop_spec (xargv.drop 2) [] false true
    unfold media3
    simp only [hc]
    rw [if_pos hq]
    simp only [h1, h2]
    exact ⟨trivial, trivial⟩
  · intro hd hhd hq hlen
    unfold media3
    simp only [hhd]
    rw [if_neg (by simp [hq])]
    rw [if_pos hlen]
    exact ⟨rfl, rfl⟩

/-- Witness for the amended claim C2 at `fddload 0 'abc' 1`. -/
theorem c2_witness :
    ((∃ c, (([("fddload").toList, ("0").toList, sq :: ("abc").toList ++ [sq],
          ("1").toList]).getD 2 []).head? = some c ∧ isQuote c = true)
      ∧ (media3 [("fddload").toList, ("0").toList, sq :: ("abc").toList ++ [sq],
          ("1").toList]).ok = true)
    ∧ ((media3 [("fddload").toList, ("0").toList, sq :: ("abc").toList ++ [sq],
          ("1").toList]).fn
        = stripTrailQ (c2SpecLoop []
            (([("fddload").toList, ("0").toList, sq :: ("abc").toList ++ [sq],
              ("1").toList]).drop 2)).1
      ∧ (media3 [("fddload").toList, ("0").toList, sq :: ("abc").toList ++ [sq],
          ("1").toList]).wp
        = (c2SpecLoop []
            (([("fddload").toList, ("0").toList, sq :: ("abc").toList ++ [sq],
              ("1").toList]).drop 2)).2) :=
  ⟨⟨⟨sq, by decide, by decide⟩, by decide⟩,
    (c2_theorem _).1 ⟨sq, by decide, by decide⟩ (by decide)⟩

/-- Witness for claim C6 at a registry holding 8 sessions. -/
theorem c6_witness :
    (List.replicate 8 (ClientSlot.mk 0 [])).length ≤ CTRL_MAX_CLIENTS
    ∧ ((acceptClient (List.replicate 8 ⟨0, []⟩) 9).1.length ≤ CTRL_MAX_CLIENTS
        ∧ (removeClient (List.replicate 8 ⟨0, []⟩) 0).length ≤ CTRL_MAX_CLIENTS
        ∧ ((List.replicate 8 (ClientSlot.mk 0 [])).length = CTRL_MAX_CLIENTS →
            acceptClient (List.replicate 8 ⟨0, []⟩) 9
              = (List.replicate 8 ⟨0, []⟩, some (("ERR too many clients\n").toList), true))) :=
  ⟨by decide, c6_theorem (List.replicate 8 ⟨0, []⟩) 9 0 (by decide)⟩

end CtrlSock
